import Mathlib

/-!
# USM (Universal State Machine) — shallow embedding

A shallow embedding of the core finite-state machine of the `usm` TypeScript
package (the `USM` class: constructor, `start`, `stop`, `send`, `tick`, `go`,
and the internals `_transition`, `_enter`, `_exit`, `_call`, `_api`).

Modelling decisions:
* The context type `C` is a parameter; context mutation (in-place mutation or
  `api.setContext`) is modelled by actions/callbacks being functions `C → …→ C`.
* Adapter hook sets are observers: each adapter is identified by a name, and a
  hook invocation is recorded as an entry in an output trace (`TraceEvt`),
  mirroring `_call` which loops over `this.adapters`.  Hook bodies are not
  modelled (they are external glue); the `{state, evt, token}`-style argument
  records they receive are carried in the trace entries.  The `ctx` field of
  the arguments of `onTransition` callbacks is not carried in the trace (the
  claims never inspect it).
* `console.warn` / `console.log` calls are recorded as `warn` / `logLine`
  trace entries.
* The config callback `onTransition` is modelled by the flag
  `hasOnTransition` plus a `configOnTransition` trace entry (`this.onTransition?.(…)`)
  since its body is user glue, not machine state.
* Re-entrant calls into the machine from inside callbacks (`api.send`, …) are
  outside the scope of this development: callbacks are modelled as pure
  functions of `(context, event, api snapshot)`.
* JavaScript detail kept: `this.states[this._state as string]` with
  `this._state === null` looks up the property key `"null"` (ToPropertyKey
  coercion), modelled by `stateKey`; `_exit`'s `if (!stateName) return` is a
  falsiness test, true for `null` and for the empty string.
-/

namespace USMModel

/-- `USMEvent`: `{ type: string; data?: D }`.  The payload is opaque to the
machine; it is modelled as an optional string. -/
structure USMEvent where
  type : String
  data : Option String
deriving DecidableEq, Repr

/-- The API snapshot handed to actions/guards (`USM._api`): current state name
and a token (either the live token or the `validToken` passed to `_api`).
`send`/`go`/`setContext` re-entry is not modelled (see module docstring). -/
structure USMApi where
  state : Option String
  token : Nat
deriving DecidableEq, Repr

/-- The object form of a transition: `{ target; action?; guard? }`. -/
structure TransObj (C : Type) where
  target : String
  action : Option (C → USMEvent → USMApi → C)
  guard : Option (C → USMEvent → USMApi → Bool)

/-- `USMTransition<C> = string | { target; action?; guard? }`. -/
inductive USMTransition (C : Type) where
  | str (target : String)
  | obj (o : TransObj C)

/-- An entry of a state's `on` table: a transition, or a resolver function
`(ctx, evt, api) => USMTransition`. -/
inductive USMRule (C : Type) where
  | trans (t : USMTransition C)
  | fn (f : C → USMEvent → USMApi → USMTransition C)

/-- `USMStateNode<C>`: optional `enter` / `exit` / `tick` callbacks and the
`on` event table (a record, modelled as an association list). -/
structure USMStateNode (C : Type) where
  enter : Option (C → USMEvent → USMApi → C)
  exit : Option (C → USMEvent → USMApi → C)
  tick : Option (Int → C → USMApi → C)
  «on» : List (String × USMRule C)

/-- The argument records passed to adapter hooks by `_call`. -/
inductive HookCall where
  | onStart (evt : USMEvent)
  | onStop (evt : USMEvent)
  | onEnter (state : String) (evt : USMEvent) (token : Nat)
  | onExit (state : String) (evt : USMEvent)
  | onTransition (fromState : Option String) (toState : String) (evt : USMEvent)
  | onTick (dt : Int)
deriving DecidableEq, Repr

/-- One observable event of a machine operation, in execution order:
an adapter hook invocation, the config `onTransition` callback, a state-node
lifecycle callback (`enter` / `exit` / `tick`), a transition rule's action, a
`console.warn`, or a `console.log` transition log line.  `stateEnter` records
the `token` field of the API object handed to the `enter` callback. -/
inductive TraceEvt where
  | adapter (name : String) (call : HookCall)
  | configOnTransition (fromState : Option String) (toState : String) (evt : USMEvent)
  | stateEnter (state : String) (evt : USMEvent) (apiToken : Nat)
  | stateExit (state : String) (evt : USMEvent)
  | stateTick (dt : Int)
  | actionRun (evtType : String)
  | warn (msg : String)
  | logLine (msg : String)
deriving DecidableEq, Repr

/-- Is a trace entry one of the lifecycle hooks / state callbacks (as opposed
to a rule action, a warning, or a log line)? -/
def TraceEvt.isHook : TraceEvt → Bool
  | .adapter _ _ => true
  | .configOnTransition _ _ _ => true
  | .stateEnter _ _ _ => true
  | .stateExit _ _ => true
  | .stateTick _ => true
  | .actionRun _ => false
  | .warn _ => false
  | .logLine _ => false

/-- The machine: the public configuration fields plus the private mutable
fields `_state`, `_run`, `_token`.  Adapters are identified by name (their
hook invocations are recorded in traces); `hasOnTransition` records whether a
config `onTransition` callback was supplied. -/
structure USM (C : Type) where
  id : String
  initial : String
  states : List (String × USMStateNode C)
  context : C
  adapters : List String
  log : Bool
  hasOnTransition : Bool
  _state : Option String
  _run : Bool
  _token : Nat

variable {C : Type}

/-- `isCurrent(token) { return token === this._token; }` -/
def USM.isCurrent (m : USM C) (token : Nat) : Bool := token == m._token

/-- `_call(hook, arg)`: `for (const a of this.adapters) a[hook]?.(arg)` —
one trace entry per adapter, in registration order. -/
def USM._call (m : USM C) (h : HookCall) : List TraceEvt :=
  m.adapters.map (fun a => TraceEvt.adapter a h)

/-- `_api(validToken?)`: the API snapshot; `token: validToken ?? this._token`. -/
def USM._api (m : USM C) (validToken : Option Nat) : USMApi :=
  ⟨m._state, validToken.getD m._token⟩

/-- The property key used by `this.states[this._state as string]`:
JavaScript coerces the key `null` to the string `"null"`. -/
def USM.stateKey (m : USM C) : String :=
  match m._state with
  | some s => s
  | none => "null"

/-- `_enter(stateName, evt)`: set `_state`, increment `_token`, fire `onEnter`
adapter hooks with the new token, then run the state's `enter` callback with
`_api(this._token)` (the new token). -/
def USM._enter (m : USM C) (stateName : String) (evt : USMEvent) :
    USM C × List TraceEvt :=
  let m1 : USM C := { m with _state := some stateName, _token := m._token + 1 }
  let tr1 := m1._call (HookCall.onEnter stateName evt m1._token)
  match (m1.states.lookup stateName).bind (fun n => n.enter) with
  | some f =>
      ({ m1 with context := f m1.context evt (m1._api (some m1._token)) },
       tr1 ++ [TraceEvt.stateEnter stateName evt m1._token])
  | none => (m1, tr1)

/-- `_exit(stateName, evt)`: return if `stateName` is falsy (`null` or `""`),
else fire `onExit` adapter hooks, then run the state's `exit` callback. -/
def USM._exit (m : USM C) (stateName : Option String) (evt : USMEvent) :
    USM C × List TraceEvt :=
  match stateName with
  | none => (m, [])
  | some s =>
      if s = "" then (m, [])
      else
        let tr1 := m._call (HookCall.onExit s evt)
        match (m.states.lookup s).bind (fun n => n.exit) with
        | some f =>
            ({ m with context := f m.context evt (m._api none) },
             tr1 ++ [TraceEvt.stateExit s evt])
        | none => (m, tr1)

/-- The `console.warn` message of `_transition` for an unknown target. -/
def USM.unknownMsg (m : USM C) (target : String) : String :=
  "[" ++ m.id ++ "] Unknown state \"" ++ target ++ "\""

/-- `_transition(target, evt)`: warn and abort on an unknown target; no-op if
`from === target`; otherwise exit the current state, enter the target, then
fire the config `onTransition` callback, the adapter `onTransition` hooks,
and the optional log line. -/
def USM._transition (m : USM C) (target : String) (evt : USMEvent) :
    USM C × List TraceEvt :=
  if (m.states.lookup target).isNone then (m, [TraceEvt.warn (m.unknownMsg target)])
  else
    let fromS := m._state
    if fromS = some target then (m, [])
    else
      let p1 := m._exit fromS evt
      let p2 := p1.1._enter target evt
      let tr3 := if m.hasOnTransition
        then [TraceEvt.configOnTransition fromS target evt] else []
      let tr4 := p2.1._call (HookCall.onTransition fromS target evt)
      let tr5 := if m.log
        then [TraceEvt.logLine ("[" ++ m.id ++ "] " ++ evt.type)] else []
      (p2.1, p1.2 ++ p2.2 ++ tr3 ++ tr4 ++ tr5)

/-- Is a rule value falsy in JavaScript?  Rules are strings, objects or
functions; objects and functions are always truthy, so only the bare
empty-string transition is falsy. -/
def ruleFalsy {C : Type} : USMRule C → Bool
  | USMRule.trans (USMTransition.str s) => s = ""
  | _ => false

/-- The rule `send` looks up — `this.states[this._state as string]?.on?.[evt.type]`
followed by `if (!rule) return`: a falsy (bare empty-string) rule counts as
absent. -/
def USM.sendRule (m : USM C) (evt : USMEvent) : Option (USMRule C) :=
  ((m.states.lookup m.stateKey).bind (fun d => d.«on».lookup evt.type)).bind
    (fun rule => if ruleFalsy rule then none else some rule)

/-- Resolution of the rule, then the source's
`if (!resolved || typeof (resolved as any).target !== 'string') return;` check:
a function rule's *raw* return value must be an object with a string `target`
— a resolver returning a bare string has no `.target` property (and an
empty-string return is also falsy) and is silently dropped.  A non-function
bare-string rule was wrapped in `{ target: rule }` and an object rule carries
a string `target` by type, so both pass the check. -/
def USM.sendResolved (m : USM C) (evt : USMEvent) : Option (TransObj C) :=
  (m.sendRule evt).bind (fun rule =>
    match rule with
    | USMRule.fn f =>
        match f m.context evt (m._api none) with
        | USMTransition.str _ => none
        | USMTransition.obj o => some o
    | USMRule.trans (USMTransition.str s) => some ⟨s, none, none⟩
    | USMRule.trans (USMTransition.obj o) => some o)

/-- `obj.guard && !obj.guard(...)`: the guard's verdict (`true` when absent). -/
def USM.sendGuardOk (m : USM C) (o : TransObj C) (evt : USMEvent) : Bool :=
  match o.guard with
  | some g => g m.context evt (m._api none)
  | none => true

/-- The machine after the resolved rule's action ran: `obj.action?.(ctx, evt, api)`. -/
def USM.sendActioned (m : USM C) (o : TransObj C) (evt : USMEvent) : USM C :=
  match o.action with
  | some a => { m with context := a m.context evt (m._api none) }
  | none => m

/-- The trace of the resolved rule's action (one `actionRun` entry when present). -/
def actionTrace {C : Type} (o : TransObj C) (evt : USMEvent) : List TraceEvt :=
  match o.action with
  | some _ => [TraceEvt.actionRun evt.type]
  | none => []

/-- `send(event)`: look up and resolve the rule (silently return when there is
none), check the guard, run the action, then `_transition(obj.target, evt)`. -/
def USM.send (m : USM C) (evt : USMEvent) : USM C × List TraceEvt :=
  match m.sendResolved evt with
  | none => (m, [])
  | some obj =>
      if m.sendGuardOk obj evt = false then (m, [])
      else
        let q := (m.sendActioned obj evt)._transition obj.target evt
        (q.1, actionTrace obj evt ++ q.2)

/-- `tick(dt)`: run the current state's `tick` callback, then fire the
adapter `onTick` hooks. -/
def USM.tick (m : USM C) (dt : Int) : USM C × List TraceEvt :=
  let p : USM C × List TraceEvt :=
    match (m.states.lookup m.stateKey).bind (fun d => d.tick) with
    | some f => ({ m with context := f dt m.context (m._api none) },
                 [TraceEvt.stateTick dt])
    | none => (m, [])
  (p.1, p.2 ++ p.1._call (HookCall.onTick dt))

/-- `go(target, evt = {type:'@GO'})`: directly `_transition`. -/
def USM.go (m : USM C) (target : String) (evt : USMEvent) : USM C × List TraceEvt :=
  m._transition target evt

/-- `start(evt = {type:'@START'})`: no-op if running; set `_run`, fire
`onStart` hooks, enter the initial state. -/
def USM.start (m : USM C) (evt : USMEvent) : USM C × List TraceEvt :=
  if m._run then (m, [])
  else
    let m1 : USM C := { m with _run := true }
    let tr1 := m1._call (HookCall.onStart evt)
    let p := m1._enter m1.initial evt
    (p.1, tr1 ++ p.2)

/-- `stop(evt = {type:'@STOP'})`: no-op if not running; fire `onStop` hooks,
exit the current state, clear `_run`. -/
def USM.stop (m : USM C) (evt : USMEvent) : USM C × List TraceEvt :=
  if m._run = false then (m, [])
  else
    let tr1 := m._call (HookCall.onStop evt)
    let p := m._exit m._state evt
    ({ p.1 with _run := false }, tr1 ++ p.2)

/-- The machine with its `_run` flag replaced — used to state that `go`,
`send` and `tick` never read the running flag. -/
def USM.setRun (m : USM C) (b : Bool) : USM C := { m with _run := b }

/-- Constructor options (`USMConfig<C>`), with adapters as names and the
config `onTransition` callback as a presence flag. -/
structure USMConfig (C : Type) where
  id : Option String
  initial : String
  states : List (String × USMStateNode C)
  context : Option C
  adapters : List String
  log : Bool
  hasOnTransition : Bool

/-- The constructor.  `emptyC` models the empty record `{}` that
`config.context || {}` falls back to.  Throwing is modelled by `Except`:
`throw new Error(...)` when the initial state is not in the state map. -/
def USM.construct (emptyC : C) (config : USMConfig C) : Except String (USM C) :=
  let theId : String :=
    match config.id with
    | some s => if s = "" then "usm" else s
    | none => "usm"
  if (config.states.lookup config.initial).isNone then
    Except.error ("[" ++ theId ++ "] initial state \"" ++ config.initial ++ "\" not found")
  else
    Except.ok
      { id := theId
        initial := config.initial
        states := config.states
        context := match config.context with
          | some c => c
          | none => emptyC
        adapters := config.adapters
        log := config.log
        hasOnTransition := config.hasOnTransition
        _state := none
        _run := false
        _token := 0 }

/-! ## Concrete example machine (used by witnesses and counterexamples)

The context is a `Nat` (a stand-in for a mutable context record; an action
"mutating the context" is modelled by changing the number). -/

/-- Example rule action: mutates the context (adds 1). -/
def exInc : Nat → USMEvent → USMApi → Nat := fun c _ _ => c + 1

/-- Example `exit` callback body for state `"a"`. -/
def exAdd10 : Nat → USMEvent → USMApi → Nat := fun c _ _ => c + 10

/-- Example `enter` callback body for state `"b"`. -/
def exAdd100 : Nat → USMEvent → USMApi → Nat := fun c _ _ => c + 100

/-- A guard that always returns false. -/
def exGuardFalse : Nat → USMEvent → USMApi → Bool := fun _ _ _ => false

/-- State `"a"`: has an `exit` callback and rules for a plain transition, a
self-transition with an action, a self-transition as a bare string, a
transition to an unknown target with an action, and a guarded transition. -/
def exNodeA : USMStateNode Nat :=
  ⟨none, some exAdd10, none,
   [("GO_B", USMRule.trans (USMTransition.str "b")),
    ("SELF", USMRule.trans (USMTransition.obj ⟨"a", some exInc, none⟩)),
    ("SELF0", USMRule.trans (USMTransition.str "a")),
    ("NOWHERE", USMRule.trans (USMTransition.obj ⟨"zzz", some exInc, none⟩)),
    ("GUARDED", USMRule.trans (USMTransition.obj ⟨"b", some exInc, some exGuardFalse⟩)),
    ("FNSTR", USMRule.fn (fun _ _ _ => USMTransition.str "b")),
    ("EMPTY", USMRule.trans (USMTransition.str ""))]⟩

/-- State `"b"`: has an `enter` callback. -/
def exNodeB : USMStateNode Nat := ⟨some exAdd100, none, some (fun _ c _ => c), []⟩

/-- A started machine in state `"a"` with one adapter (`"ad1"`), a config
`onTransition` callback, context `0`, token `5`. -/
def exMachine : USM Nat :=
  ⟨"usm", "a", [("a", exNodeA), ("b", exNodeB)], 0, ["ad1"], false, true,
   some "a", true, 5⟩

/-- The same machine, not running (as after `stop()` or before `start()`). -/
def exStopped : USM Nat :=
  ⟨"usm", "a", [("a", exNodeA), ("b", exNodeB)], 0, ["ad1"], false, true,
   some "a", false, 5⟩

/-- A freshly-constructed, never-started machine (no current state). -/
def exFresh : USM Nat :=
  ⟨"usm", "a", [("a", exNodeA), ("b", exNodeB)], 0, ["ad1"], false, true,
   none, false, 0⟩

/-- A well-formed config whose `context` is omitted. -/
def exConfig : USMConfig Nat :=
  ⟨some "demo", "a", [("a", exNodeA), ("b", exNodeB)], none, ["ad1"], false, false⟩

/-- A config whose `initial` is not a key of `states`. -/
def exBadConfig : USMConfig Nat :=
  ⟨some "demo", "q", [("a", exNodeA), ("b", exNodeB)], none, ["ad1"], false, false⟩

/-- The machine `USM.construct 0 exConfig` produces. -/
def exConstructed : USM Nat :=
  ⟨"demo", "a", [("a", exNodeA), ("b", exNodeB)], 0, ["ad1"], false, false,
   none, false, 0⟩

/-- `Precedes x y tr`: an occurrence of `x` appears strictly before an
occurrence of `y` in the trace `tr`. -/
def Precedes (x y : TraceEvt) (tr : List TraceEvt) : Prop :=
  ∃ pre mid post, tr = pre ++ x :: mid ++ y :: post

def evGo : USMEvent := ⟨"@GO", none⟩
def evGoB : USMEvent := ⟨"GO_B", none⟩
def evSelf : USMEvent := ⟨"SELF", none⟩
def evSelf0 : USMEvent := ⟨"SELF0", none⟩
def evNowhere : USMEvent := ⟨"NOWHERE", none⟩
def evGuarded : USMEvent := ⟨"GUARDED", none⟩
def evUnknown : USMEvent := ⟨"UNKNOWN", none⟩
def evFnStr : USMEvent := ⟨"FNSTR", none⟩
def evEmpty : USMEvent := ⟨"EMPTY", none⟩

/-! ## Shape and trace lemmas for the internal operations -/

theorem exit_fst (m : USM C) (sn : Option String) (e : USMEvent) :
    ∃ c, (m._exit sn e).1 = { m with context := c } := by
  cases sn with
  | none => exact ⟨m.context, rfl⟩
  | some s =>
      by_cases hs : s = ""
      · exact ⟨m.context, by simp [USM._exit, hs]⟩
      · unfold USM._exit
        cases hl : (m.states.lookup s).bind (fun n => n.exit) with
        | none => exact ⟨m.context, by simp [hs, hl]⟩
        | some f => exact ⟨f m.context e (m._api none), by simp [hs, hl]⟩

theorem enter_fst (m : USM C) (s : String) (e : USMEvent) :
    ∃ c, (m._enter s e).1 =
      { m with context := c, _state := some s, _token := m._token + 1 } := by
  unfold USM._enter
  cases hl : (m.states.lookup s).bind (fun n => n.enter) with
  | none => exact ⟨m.context, by simp [hl]⟩
  | some f =>
      refine ⟨f m.context e ⟨some s, m._token + 1⟩, by simp [hl]; rfl⟩

theorem enter_trace (m : USM C) (s : String) (e : USMEvent) :
    (m._enter s e).2 = m._call (HookCall.onEnter s e (m._token + 1)) ++
      (if ((m.states.lookup s).bind (fun n => n.enter)).isSome
       then [TraceEvt.stateEnter s e (m._token + 1)] else []) := by
  unfold USM._enter
  cases hl : (m.states.lookup s).bind (fun n => n.enter) with
  | none => simp [hl]; rfl
  | some f => simp [hl]; rfl

theorem exit_trace (m : USM C) (s : String) (e : USMEvent) (hs : s ≠ "") :
    (m._exit (some s) e).2 = m._call (HookCall.onExit s e) ++
      (if ((m.states.lookup s).bind (fun n => n.exit)).isSome
       then [TraceEvt.stateExit s e] else []) := by
  unfold USM._exit
  cases hl : (m.states.lookup s).bind (fun n => n.exit) with
  | none => simp [hs, hl]
  | some f => simp [hs, hl]

theorem exit_trace_trivial (m : USM C) (sn : Option String) (e : USMEvent)
    (h : sn = none ∨ sn = some "") : (m._exit sn e).2 = [] := by
  rcases h with h | h <;> subst h <;> simp [USM._exit]

theorem transition_unknown (m : USM C) (t : String) (e : USMEvent)
    (h : m.states.lookup t = none) :
    m._transition t e = (m, [TraceEvt.warn (m.unknownMsg t)]) := by
  unfold USM._transition
  simp [h]

theorem transition_noop (m : USM C) (t : String) (e : USMEvent)
    (h : (m.states.lookup t).isSome) (h2 : m._state = some t) :
    m._transition t e = (m, []) := by
  obtain ⟨v, hv⟩ := Option.isSome_iff_exists.mp h
  unfold USM._transition
  rw [hv]
  simp [h2]

theorem transition_step (m : USM C) (t : String) (e : USMEvent)
    (h : (m.states.lookup t).isSome) (h2 : m._state ≠ some t) :
    m._transition t e =
      (((m._exit m._state e).1._enter t e).1,
       (m._exit m._state e).2 ++ ((m._exit m._state e).1._enter t e).2 ++
       (if m.hasOnTransition then [TraceEvt.configOnTransition m._state t e] else []) ++
       ((m._exit m._state e).1._enter t e).1._call (HookCall.onTransition m._state t e) ++
       (if m.log then [TraceEvt.logLine ("[" ++ m.id ++ "] " ++ e.type)] else [])) := by
  obtain ⟨v, hv⟩ := Option.isSome_iff_exists.mp h
  unfold USM._transition
  rw [hv]
  simp [h2]

theorem transition_fst (m : USM C) (t : String) (e : USMEvent)
    (h : (m.states.lookup t).isSome) (h2 : m._state ≠ some t) :
    ∃ c, (m._transition t e).1 =
      { m with context := c, _state := some t, _token := m._token + 1 } := by
  obtain ⟨c1, hc1⟩ := exit_fst m m._state e
  obtain ⟨c2, hc2⟩ := enter_fst (m._exit m._state e).1 t e
  refine ⟨c2, ?_⟩
  rw [transition_step m t e h h2]
  rw [hc2, hc1]

theorem transition_trace (m : USM C) (t : String) (e : USMEvent)
    (h : (m.states.lookup t).isSome) (h2 : m._state ≠ some t) :
    (m._transition t e).2 =
      (m._exit m._state e).2 ++ ((m._exit m._state e).1._enter t e).2 ++
      (if m.hasOnTransition then [TraceEvt.configOnTransition m._state t e] else []) ++
      m._call (HookCall.onTransition m._state t e) ++
      (if m.log then [TraceEvt.logLine ("[" ++ m.id ++ "] " ++ e.type)] else []) := by
  obtain ⟨c1, hc1⟩ := exit_fst m m._state e
  obtain ⟨c2, hc2⟩ := enter_fst (m._exit m._state e).1 t e
  have hcall : ((m._exit m._state e).1._enter t e).1._call
      (HookCall.onTransition m._state t e) = m._call (HookCall.onTransition m._state t e) := by
    rw [hc2, hc1]
    rfl
  rw [transition_step m t e h h2, hcall]

theorem send_no_rule (m : USM C) (e : USMEvent) (h : m.sendResolved e = none) :
    m.send e = (m, []) := by
  unfold USM.send
  rw [h]

theorem send_guard_false (m : USM C) (o : TransObj C) (e : USMEvent)
    (h : m.sendResolved e = some o) (hg : m.sendGuardOk o e = false) :
    m.send e = (m, []) := by
  unfold USM.send
  rw [h]
  simp [hg]

theorem send_step (m : USM C) (o : TransObj C) (e : USMEvent)
    (h : m.sendResolved e = some o) (hg : m.sendGuardOk o e = true) :
    m.send e = (((m.sendActioned o e)._transition o.target e).1,
      actionTrace o e ++ ((m.sendActioned o e)._transition o.target e).2) := by
  unfold USM.send
  rw [h]
  simp [hg]

theorem sendActioned_fst (m : USM C) (o : TransObj C) (e : USMEvent) :
    ∃ c, m.sendActioned o e = { m with context := c } := by
  unfold USM.sendActioned
  cases o.action with
  | none => exact ⟨m.context, rfl⟩
  | some a => exact ⟨a m.context e (m._api none), rfl⟩

theorem actionTrace_hookFree {C : Type} (o : TransObj C) (e : USMEvent) :
    ∀ x ∈ actionTrace o e, x.isHook = false := by
  unfold actionTrace
  cases o.action <;> simp [TraceEvt.isHook]

/-! ## `go` / `send` / `tick` never read the `_run` flag -/

theorem setRun_exit (m : USM C) (sn : Option String) (e : USMEvent) (b : Bool) :
    (m.setRun b)._exit sn e = ((m._exit sn e).1.setRun b, (m._exit sn e).2) := by
  cases sn with
  | none => rfl
  | some s =>
      by_cases hs : s = ""
      · subst hs
        simp [USM._exit, USM.setRun]
      · unfold USM._exit USM.setRun
        cases hl : (m.states.lookup s).bind (fun n => n.exit) with
        | none => simp [hs, hl]; rfl
        | some f => simp [hs, hl]; exact ⟨rfl, rfl⟩

theorem setRun_enter (m : USM C) (s : String) (e : USMEvent) (b : Bool) :
    (m.setRun b)._enter s e = ((m._enter s e).1.setRun b, (m._enter s e).2) := by
  unfold USM._enter USM.setRun
  cases hl : (m.states.lookup s).bind (fun n => n.enter) with
  | none => simp [hl]; rfl
  | some f => simp [hl]; exact ⟨rfl, rfl⟩

theorem setRun_transition (m : USM C) (t : String) (e : USMEvent) (b : Bool) :
    (m.setRun b)._transition t e = ((m._transition t e).1.setRun b, (m._transition t e).2) := by
  have hstates : (m.setRun b).states = m.states := rfl
  have hstate : (m.setRun b)._state = m._state := rfl
  by_cases h : (m.states.lookup t).isSome
  · by_cases h2 : m._state = some t
    · rw [transition_noop (m.setRun b) t e (by rw [hstates]; exact h) (by rw [hstate, h2]),
        transition_noop m t e h h2]
    · rw [transition_step (m.setRun b) t e (by rw [hstates]; exact h)
          (by rw [hstate]; exact h2),
        transition_step m t e h h2]
      rw [hstate, setRun_exit m m._state e b, setRun_enter (m._exit m._state e).1 t e b]
      rfl
  · have hn : m.states.lookup t = none := Option.not_isSome_iff_eq_none.mp h
    rw [transition_unknown (m.setRun b) t e (by rw [hstates]; exact hn),
      transition_unknown m t e hn]
    rfl

theorem setRun_go (m : USM C) (t : String) (e : USMEvent) (b : Bool) :
    (m.setRun b).go t e = ((m.go t e).1.setRun b, (m.go t e).2) :=
  setRun_transition m t e b

theorem setRun_sendResolved (m : USM C) (e : USMEvent) (b : Bool) :
    (m.setRun b).sendResolved e = m.sendResolved e := rfl

theorem setRun_sendGuardOk (m : USM C) (o : TransObj C) (e : USMEvent) (b : Bool) :
    (m.setRun b).sendGuardOk o e = m.sendGuardOk o e := rfl

theorem setRun_sendActioned (m : USM C) (o : TransObj C) (e : USMEvent) (b : Bool) :
    (m.setRun b).sendActioned o e = (m.sendActioned o e).setRun b := by
  unfold USM.sendActioned USM.setRun
  cases o.action with
  | none => rfl
  | some a => rfl

theorem setRun_send (m : USM C) (e : USMEvent) (b : Bool) :
    (m.setRun b).send e = ((m.send e).1.setRun b, (m.send e).2) := by
  cases h : m.sendResolved e with
  | none =>
      rw [send_no_rule (m.setRun b) e (by rw [setRun_sendResolved]; exact h),
        send_no_rule m e h]
  | some o =>
      cases hg : m.sendGuardOk o e with
      | false =>
          rw [send_guard_false (m.setRun b) o e (by rw [setRun_sendResolved]; exact h)
              (by rw [setRun_sendGuardOk]; exact hg),
            send_guard_false m o e h hg]
      | true =>
          rw [send_step (m.setRun b) o e (by rw [setRun_sendResolved]; exact h)
              (by rw [setRun_sendGuardOk]; exact hg),
            send_step m o e h hg]
          rw [setRun_sendActioned m o e b, setRun_transition (m.sendActioned o e) o.target e b]

theorem setRun_tick (m : USM C) (dt : Int) (b : Bool) :
    (m.setRun b).tick dt = ((m.tick dt).1.setRun b, (m.tick dt).2) := by
  have hst : (m.setRun b).states = m.states := rfl
  have hk : (m.setRun b).stateKey = m.stateKey := rfl
  unfold USM.tick
  rw [hst, hk]
  cases hl : (m.states.lookup m.stateKey).bind (fun d => d.tick) with
  | none => simp [hl]; rfl
  | some f =>
      simp [hl]
      constructor <;> rfl

theorem tick_fst (m : USM C) (dt : Int) :
    ∃ c, (m.tick dt).1 = { m with context := c } := by
  unfold USM.tick
  cases hl : (m.states.lookup m.stateKey).bind (fun d => d.tick) with
  | none => exact ⟨m.context, by simp [hl]⟩
  | some f => exact ⟨f dt m.context (m._api none), by simp [hl]⟩

theorem mem_call (m : USM C) (h : HookCall) (a : String) (ha : a ∈ m.adapters) :
    TraceEvt.adapter a h ∈ m._call h :=
  List.mem_map_of_mem (fun x => TraceEvt.adapter x h) ha

theorem tick_trace (m : USM C) (dt : Int) :
    (m.tick dt).2 =
      (if ((m.states.lookup m.stateKey).bind (fun d => d.tick)).isSome
       then [TraceEvt.stateTick dt] else []) ++ m._call (HookCall.onTick dt) := by
  unfold USM.tick
  cases hl : (m.states.lookup m.stateKey).bind (fun d => d.tick) with
  | none => simp [hl]
  | some f => simp [hl]; rfl

theorem Precedes.append_right {x y : TraceEvt} {A : List TraceEvt} (B : List TraceEvt)
    (h : Precedes x y A) : Precedes x y (A ++ B) := by
  obtain ⟨pre, mid, post, hp⟩ := h
  refine ⟨pre, mid, post ++ B, ?_⟩
  rw [hp]
  simp

theorem Precedes.append_left {x y : TraceEvt} (A : List TraceEvt) {B : List TraceEvt}
    (h : Precedes x y B) : Precedes x y (A ++ B) := by
  obtain ⟨pre, mid, post, hp⟩ := h
  refine ⟨A ++ pre, mid, post, ?_⟩
  rw [hp]
  simp

theorem precedes_append (x y : TraceEvt) (A B : List TraceEvt)
    (hx : x ∈ A) (hy : y ∈ B) : Precedes x y (A ++ B) := by
  obtain ⟨a1, a2, ha⟩ := List.append_of_mem hx
  obtain ⟨b1, b2, hb⟩ := List.append_of_mem hy
  refine ⟨a1, a2 ++ b1, b2, ?_⟩
  rw [ha, hb]
  simp

/-! ## The claims -/

/-- **C6**: if `send` resolves to a rule with a guard that returns false, the
rule's action is never invoked (the result trace is empty, so no `actionRun`
entry), no transition occurs, and the machine — state, token, context — is
completely unchanged by the call.  Guards are modelled as pure functions, so
"the guard does not mutate context" holds by construction. -/
theorem c6_guard_gating (m : USM C) (o : TransObj C) (e : USMEvent)
    (h : m.sendResolved e = some o) (hg : m.sendGuardOk o e = false) :
    m.send e = (m, []) :=
  send_guard_false m o e h hg

/-- Witness for C6: the `GUARDED` rule of the example machine (guard always
false) leaves the machine untouched. -/
theorem c6_witness : exMachine.send evGuarded = (exMachine, []) :=
  c6_guard_gating exMachine ⟨"b", some exInc, some exGuardFalse⟩ evGuarded rfl rfl

/-- **C8**: for an event type with no entry in the current state's `on` table,
`send` returns silently: the machine (state, token, context) is unchanged and
the trace is empty (no callbacks or hooks run); no exception (the model is a
total function). -/
theorem c8_unknown_event_silent (m : USM C) (e : USMEvent)
    (h : m.sendRule e = none) : m.send e = (m, []) := by
  have hr : m.sendResolved e = none := by
    unfold USM.sendResolved
    rw [h]
    rfl
  exact send_no_rule m e hr

/-- Witness for C8: `send('UNKNOWN')` in state `"a"` is a silent no-op. -/
theorem c8_witness : exMachine.send evUnknown = (exMachine, []) :=
  c8_unknown_event_silent exMachine evUnknown rfl

/-- **C3**: whenever a `go` target, or the resolved target of a `send` whose
guard passes (or is absent), equals the current state, the token (and the
state) is unchanged and no `exit`/`enter` state callback, no
`onExit`/`onEnter`/`onTransition` adapter hook, and no config `onTransition`
callback fires (every trace entry is a non-hook: a `warn` or an `actionRun`). -/
theorem c3_noop_invariance (m : USM C) (t : String) (e : USMEvent) (o : TransObj C) :
    (m._state = some t →
      (m.go t e).1._token = m._token ∧ (m.go t e).1._state = m._state ∧
      ∀ x ∈ (m.go t e).2, x.isHook = false) ∧
    (m.sendResolved e = some o → m.sendGuardOk o e = true → m._state = some o.target →
      (m.send e).1._token = m._token ∧ (m.send e).1._state = m._state ∧
      ∀ x ∈ (m.send e).2, x.isHook = false) := by
  constructor
  · intro hst
    show (m._transition t e).1._token = m._token ∧
      (m._transition t e).1._state = m._state ∧ ∀ x ∈ (m._transition t e).2, x.isHook = false
    by_cases h : (m.states.lookup t).isSome
    · rw [transition_noop m t e h hst]
      exact ⟨rfl, rfl, by simp⟩
    · rw [transition_unknown m t e (Option.not_isSome_iff_eq_none.mp h)]
      refine ⟨rfl, rfl, ?_⟩
      intro x hx
      simp at hx
      rw [hx]
      rfl
  · intro h hg hst
    rw [send_step m o e h hg]
    obtain ⟨c, hc⟩ := sendActioned_fst m o e
    have hst' : (m.sendActioned o e)._state = some o.target := by rw [hc]; exact hst
    have hstates : (m.sendActioned o e).states = m.states := by rw [hc]
    by_cases hk : (m.states.lookup o.target).isSome
    · rw [transition_noop (m.sendActioned o e) o.target e (by rw [hstates]; exact hk) hst']
      refine ⟨by rw [hc], by rw [hc], ?_⟩
      · simp only [List.append_nil]
        exact actionTrace_hookFree o e
    · rw [transition_unknown (m.sendActioned o e) o.target e
        (by rw [hstates]; exact Option.not_isSome_iff_eq_none.mp hk)]
      refine ⟨by rw [hc], by rw [hc], ?_⟩
      intro x hx
      rcases List.mem_append.mp hx with hx | hx
      · exact actionTrace_hookFree o e x hx
      · simp at hx
        rw [hx]
        rfl

/-- Witness for C3: `go` to the current state `"a"`, and a `send` (`SELF`)
resolving to the current state, keep token and state and fire no hooks. -/
theorem c3_witness :
    ((exMachine.go "a" evGo).1._token = exMachine._token ∧
      (exMachine.go "a" evGo).1._state = exMachine._state ∧
      ∀ x ∈ (exMachine.go "a" evGo).2, x.isHook = false) ∧
    ((exMachine.send evSelf).1._token = exMachine._token ∧
      (exMachine.send evSelf).1._state = exMachine._state ∧
      ∀ x ∈ (exMachine.send evSelf).2, x.isHook = false) :=
  ⟨(c3_noop_invariance exMachine "a" evGo ⟨"a", some exInc, none⟩).1 rfl,
   (c3_noop_invariance exMachine "a" evSelf ⟨"a", some exInc, none⟩).2 rfl rfl rfl⟩

/-- **C4, counterexample**: the claim says a `send` resolving to the current
state leaves the context exactly as before.  On the example machine, the
`SELF` rule targets the current state `"a"` with no guard, yet its action runs
before the no-op check and mutates the context (0 becomes 1). -/
theorem c4_counterexample :
    ((exMachine.sendResolved evSelf).map (fun o => o.target) = some "a" ∧
     (exMachine.sendResolved evSelf).map (fun o => o.guard.isNone) = some true ∧
     exMachine._state = some "a") ∧
    ¬ ((exMachine.send evSelf).1.context = exMachine.context) := by
  decide

/-- **C4 (amended)**: a `send` whose rule resolves (guard passing or absent)
to the current state leaves state and token exactly as before and fires no
hooks, but the rule's action still runs before the no-op check: the resulting
context is the action's result (so only when the rule carries no action is the
context unchanged). -/
theorem c4_noop_send_frame (m : USM C) (o : TransObj C) (e : USMEvent)
    (h : m.sendResolved e = some o) (hg : m.sendGuardOk o e = true)
    (hst : m._state = some o.target) :
    (m.send e).1._state = m._state ∧ (m.send e).1._token = m._token ∧
    (∀ x ∈ (m.send e).2, x.isHook = false) ∧
    (m.send e).1.context = (m.sendActioned o e).context ∧
    (o.action = none → (m.send e).1.context = m.context) := by
  rw [send_step m o e h hg]
  obtain ⟨c, hc⟩ := sendActioned_fst m o e
  have hst' : (m.sendActioned o e)._state = some o.target := by rw [hc]; exact hst
  have hstates : (m.sendActioned o e).states = m.states := by rw [hc]
  have hnoop : (m.sendActioned o e)._transition o.target e =
      (m.sendActioned o e, (m.sendActioned o e)._transition o.target e |>.2) := by
    by_cases hk : (m.states.lookup o.target).isSome
    · rw [transition_noop (m.sendActioned o e) o.target e (by rw [hstates]; exact hk) hst']
    · rw [transition_unknown (m.sendActioned o e) o.target e
        (by rw [hstates]; exact Option.not_isSome_iff_eq_none.mp hk)]
  have htr : ∀ x ∈ ((m.sendActioned o e)._transition o.target e).2, x.isHook = false := by
    by_cases hk : (m.states.lookup o.target).isSome
    · rw [transition_noop (m.sendActioned o e) o.target e (by rw [hstates]; exact hk) hst']
      simp
    · rw [transition_unknown (m.sendActioned o e) o.target e
        (by rw [hstates]; exact Option.not_isSome_iff_eq_none.mp hk)]
      intro x hx
      simp at hx
      rw [hx]
      rfl
  have hfst : ((m.sendActioned o e)._transition o.target e).1 = m.sendActioned o e := by
    rw [hnoop]
  refine ⟨?_, ?_, ?_, ?_, ?_⟩
  · rw [hfst, hc]
  · rw [hfst, hc]
  · intro x hx
    rcases List.mem_append.mp hx with hx | hx
    · exact actionTrace_hookFree o e x hx
    · exact htr x hx
  · rw [hfst]
  · intro hact
    rw [hfst]
    unfold USM.sendActioned
    rw [hact]

/-- Witness for C4 (amended): the bare-string self-rule `SELF0` (no action)
leaves state, token and context unchanged with no hooks fired. -/
theorem c4_witness :
    (exMachine.send evSelf0).1._state = exMachine._state ∧
    (exMachine.send evSelf0).1._token = exMachine._token ∧
    (∀ x ∈ (exMachine.send evSelf0).2, x.isHook = false) ∧
    (exMachine.send evSelf0).1.context = (exMachine.sendActioned ⟨"a", none, none⟩ evSelf0).context ∧
    ((⟨"a", none, none⟩ : TransObj Nat).action = none →
      (exMachine.send evSelf0).1.context = exMachine.context) :=
  c4_noop_send_frame exMachine ⟨"a", none, none⟩ evSelf0 rfl rfl rfl

/-- **C2**: the token increases by exactly 1 on every non-no-op state entry —
the initial `start()` entry and every `go`/guard-passing `send` whose known
target differs from the current state (re-entry of a state via another state
included, being such a `go`) — and never changes on any other operation:
`start` when already running, `stop`, `tick`, no-op transitions, unknown
targets, unknown events, guard-refused sends. -/
theorem c2_token_monotonicity (m : USM C) (t : String) (e : USMEvent) (dt : Int)
    (o : TransObj C) :
    ((m.tick dt).1._token = m._token) ∧
    ((m.stop e).1._token = m._token) ∧
    (m._run = true → m.start e = (m, [])) ∧
    (m._run = false → (m.start e).1._token = m._token + 1) ∧
    (m.states.lookup t = none → (m.go t e).1._token = m._token) ∧
    (m._state = some t → (m.go t e).1._token = m._token) ∧
    ((m.states.lookup t).isSome → m._state ≠ some t → (m.go t e).1._token = m._token + 1) ∧
    (m.sendResolved e = none → (m.send e).1._token = m._token) ∧
    (m.sendResolved e = some o → m.sendGuardOk o e = false → (m.send e).1._token = m._token) ∧
    (m.sendResolved e = some o → m.sendGuardOk o e = true → m._state = some o.target →
      (m.send e).1._token = m._token) ∧
    (m.sendResolved e = some o → m.sendGuardOk o e = true → m.states.lookup o.target = none →
      (m.send e).1._token = m._token) ∧
    (m.sendResolved e = some o → m.sendGuardOk o e = true → (m.states.lookup o.target).isSome →
      m._state ≠ some o.target → (m.send e).1._token = m._token + 1) := by
  refine ⟨?_, ?_, ?_, ?_, ?_, ?_, ?_, ?_, ?_, ?_, ?_, ?_⟩
  · obtain ⟨c, hc⟩ := tick_fst m dt
    rw [hc]
  · unfold USM.stop
    by_cases hr : m._run = false
    · rw [if_pos hr]
    · rw [if_neg hr]
      show ({ (m._exit m._state e).1 with _run := false })._token = m._token
      obtain ⟨c, hc⟩ := exit_fst m m._state e
      rw [hc]
  · intro hr
    unfold USM.start
    rw [if_pos hr]
  · intro hr
    unfold USM.start
    rw [if_neg (by rw [hr]; exact Bool.false_ne_true)]
    show ((({ m with _run := true } : USM C)._enter
      ({ m with _run := true } : USM C).initial e).1)._token = m._token + 1
    obtain ⟨c, hc⟩ := enter_fst ({ m with _run := true } : USM C)
      ({ m with _run := true } : USM C).initial e
    rw [hc]
  · intro hn
    show (m._transition t e).1._token = m._token
    rw [transition_unknown m t e hn]
  · intro hst
    show (m._transition t e).1._token = m._token
    by_cases h : (m.states.lookup t).isSome
    · rw [transition_noop m t e h hst]
    · rw [transition_unknown m t e (Option.not_isSome_iff_eq_none.mp h)]
  · intro h h2
    show (m._transition t e).1._token = m._token + 1
    obtain ⟨c, hc⟩ := transition_fst m t e h h2
    rw [hc]
  · intro h
    rw [send_no_rule m e h]
  · intro h hg
    rw [send_guard_false m o e h hg]
  · intro h hg hst
    rw [send_step m o e h hg]
    obtain ⟨c, hc⟩ := sendActioned_fst m o e
    by_cases hk : (m.states.lookup o.target).isSome
    · rw [transition_noop (m.sendActioned o e) o.target e (by rw [hc]; exact hk)
        (by rw [hc]; exact hst)]
      rw [hc]
    · rw [transition_unknown (m.sendActioned o e) o.target e
        (by rw [hc]; exact Option.not_isSome_iff_eq_none.mp hk)]
      rw [hc]
  · intro h hg hn
    rw [send_step m o e h hg]
    obtain ⟨c, hc⟩ := sendActioned_fst m o e
    rw [transition_unknown (m.sendActioned o e) o.target e (by rw [hc]; exact hn)]
    rw [hc]
  · intro h hg hk hne
    rw [send_step m o e h hg]
    obtain ⟨c, hc⟩ := sendActioned_fst m o e
    obtain ⟨c2, hc2⟩ := transition_fst (m.sendActioned o e) o.target e
      (by rw [hc]; exact hk) (by rw [hc]; exact hne)
    rw [hc2, hc]

/-- Witness for C2: concrete instances — the initial `start` entry and a real
`go` increment the token by one; `tick`, `stop`, a send whose resolver returns
a bare string (silently swallowed by the target-type check), and a send on a
falsy empty-string rule leave it unchanged. -/
theorem c2_witness :
    ((exFresh.start ⟨"@START", none⟩).1._token = exFresh._token + 1) ∧
    ((exMachine.go "b" evGo).1._token = exMachine._token + 1) ∧
    ((exMachine.tick 1).1._token = exMachine._token) ∧
    ((exMachine.stop ⟨"@STOP", none⟩).1._token = exMachine._token) ∧
    ((exMachine.send evFnStr).1._token = exMachine._token) ∧
    ((exMachine.send evEmpty).1._token = exMachine._token) :=
  ⟨(c2_token_monotonicity exFresh "b" ⟨"@START", none⟩ 1 ⟨"a", none, none⟩).2.2.2.1 rfl,
   (c2_token_monotonicity exMachine "b" evGo 1 ⟨"a", none, none⟩).2.2.2.2.2.2.1
     (by decide) (by decide),
   (c2_token_monotonicity exMachine "b" ⟨"@STOP", none⟩ 1 ⟨"a", none, none⟩).1,
   (c2_token_monotonicity exMachine "b" ⟨"@STOP", none⟩ 2 ⟨"a", none, none⟩).2.1,
   (c2_token_monotonicity exMachine "b" evFnStr 1 ⟨"a", none, none⟩).2.2.2.2.2.2.2.1 rfl,
   (c2_token_monotonicity exMachine "b" evEmpty 1 ⟨"a", none, none⟩).2.2.2.2.2.2.2.1 rfl⟩

/-- **C7, counterexample**: the claim extends unknown-target safety ("context
unchanged") to `send`; but on the example machine the `NOWHERE` rule targets
the unknown state `"zzz"` with an action, and the action runs before the
target check: the context changes from 0 to 1. -/
theorem c7_counterexample :
    ((exMachine.sendResolved evNowhere).map (fun o => o.target) = some "zzz" ∧
     (exMachine.states.lookup "zzz").isNone = true) ∧
    ¬ ((exMachine.send evNowhere).1.context = exMachine.context) := by
  decide

/-- **C7 (amended)**: `go` to an unknown target never throws; it produces only
a warning, leaving `currentState`, `token` and `context` unchanged and firing
no lifecycle hooks.  A `send` resolving to an unknown target likewise leaves
`currentState` and `token` unchanged and fires no hooks — but the rule's
action runs before the target check, so the context ends as the action's
result (unchanged only when the rule carries no action). -/
theorem c7_unknown_target_safety (m : USM C) (t : String) (e : USMEvent) (o : TransObj C) :
    (m.states.lookup t = none →
      m.go t e = (m, [TraceEvt.warn (m.unknownMsg t)])) ∧
    (m.sendResolved e = some o → m.sendGuardOk o e = true → m.states.lookup o.target = none →
      (m.send e).1._state = m._state ∧ (m.send e).1._token = m._token ∧
      (∀ x ∈ (m.send e).2, x.isHook = false) ∧
      (m.send e).1.context = (m.sendActioned o e).context ∧
      (o.action = none → (m.send e).1.context = m.context)) := by
  constructor
  · intro hn
    exact transition_unknown m t e hn
  · intro h hg hn
    rw [send_step m o e h hg]
    obtain ⟨c, hc⟩ := sendActioned_fst m o e
    rw [transition_unknown (m.sendActioned o e) o.target e (by rw [hc]; exact hn)]
    refine ⟨by rw [hc], by rw [hc], ?_, rfl, ?_⟩
    · intro x hx
      rcases List.mem_append.mp hx with hx | hx
      · exact actionTrace_hookFree o e x hx
      · simp at hx
        rw [hx]
        rfl
    · intro hact
      unfold USM.sendActioned
      rw [hact]

/-- Witness for C7 (amended): `go('zzz')` on the example machine warns and
changes nothing; the action-free variant of a send to an unknown target would
likewise leave the context unchanged. -/
theorem c7_witness :
    exMachine.go "zzz" evGo = (exMachine, [TraceEvt.warn (exMachine.unknownMsg "zzz")]) ∧
    ((exMachine.send evNowhere).1._state = exMachine._state ∧
     (exMachine.send evNowhere).1._token = exMachine._token ∧
     (∀ x ∈ (exMachine.send evNowhere).2, x.isHook = false)) :=
  ⟨(c7_unknown_target_safety exMachine "zzz" evGo ⟨"zzz", some exInc, none⟩).1 rfl,
   (fun h => ⟨h.1, h.2.1, h.2.2.1⟩)
     ((c7_unknown_target_safety exMachine "zzz" evNowhere ⟨"zzz", some exInc, none⟩).2
       rfl rfl rfl)⟩

/-- **C9**: construction fails (throws, modelled as `Except.error`) exactly
when the configured `initial` is not a key of `states`; when it succeeds the
machine is fully constructed — `initial`/`states`/`adapters` as configured,
`context` defaulting to the empty record (`emptyC`) when omitted, no current
state, not running, token 0. -/
theorem c9_construct (emptyC : C) (cfg : USMConfig C) :
    ((∃ msg, USM.construct emptyC cfg = Except.error msg) ↔
      cfg.states.lookup cfg.initial = none) ∧
    (∀ m', USM.construct emptyC cfg = Except.ok m' →
      m'.initial = cfg.initial ∧ m'.states = cfg.states ∧
      m'.context = cfg.context.getD emptyC ∧ m'.adapters = cfg.adapters ∧
      m'._state = none ∧ m'._run = false ∧ m'._token = 0) := by
  by_cases hnone : cfg.states.lookup cfg.initial = none
  · constructor
    · exact ⟨fun _ => hnone, fun _ => ⟨_, by unfold USM.construct; rw [hnone]; rfl⟩⟩
    · intro m' hok
      exfalso
      unfold USM.construct at hok
      rw [hnone] at hok
      simp at hok
  · have hcond : ((cfg.states.lookup cfg.initial).isNone = true) = False := by
      simp [Option.isNone_iff_eq_none, hnone]
    constructor
    · constructor
      · rintro ⟨msg, hmsg⟩
        unfold USM.construct at hmsg
        rw [if_neg (by simp [Option.isNone_iff_eq_none, hnone])] at hmsg
        exact absurd hmsg (by simp)
      · intro hn
        exact absurd hn hnone
    · intro m' hok
      unfold USM.construct at hok
      rw [if_neg (by simp [Option.isNone_iff_eq_none, hnone])] at hok
      have hm : m' = _ := (Except.ok.inj hok).symm
      subst hm
      refine ⟨rfl, rfl, ?_, rfl, rfl, rfl, rfl⟩
      cases cfg.context <;> rfl

/-- Witness for C9: the bad config (initial `"q"` absent) errors; the good
config builds a machine with defaulted context, no state, token 0. -/
theorem c9_witness :
    (∃ msg, USM.construct (0 : Nat) exBadConfig = Except.error msg) ∧
    (exConstructed.context = exConfig.context.getD 0 ∧
     exConstructed._state = none ∧ exConstructed._run = false ∧
     exConstructed._token = 0) :=
  ⟨(c9_construct (0 : Nat) exBadConfig).1.mpr rfl,
   (fun h => ⟨h.2.2.1, h.2.2.2.2.1, h.2.2.2.2.2.1, h.2.2.2.2.2.2⟩)
     ((c9_construct (0 : Nat) exConfig).2 exConstructed rfl)⟩

/-- **C1, counterexample**: the claim says the exiting state's `exit` callback
runs before the adapter `onExit` hooks.  In the code `_exit` calls
`this._call('onExit', …)` first and the state's `exit` callback second: on the
example machine's transition `"a" → "b"`, the adapter `onExit` entry is the
first trace entry and the `exit` callback (`stateExit`) the second, so
`stateExit` does not precede the adapter hook. -/
theorem c1_counterexample :
    (exMachine.go "b" evGo).2 =
      [TraceEvt.adapter "ad1" (HookCall.onExit "a" evGo),
       TraceEvt.stateExit "a" evGo,
       TraceEvt.adapter "ad1" (HookCall.onEnter "b" evGo 6),
       TraceEvt.stateEnter "b" evGo 6,
       TraceEvt.configOnTransition (some "a") "b" evGo,
       TraceEvt.adapter "ad1" (HookCall.onTransition (some "a") "b" evGo)] ∧
    ¬ ((exMachine.go "b" evGo).2.indexOf (TraceEvt.stateExit "a" evGo) <
       (exMachine.go "b" evGo).2.indexOf (TraceEvt.adapter "ad1" (HookCall.onExit "a" evGo))) := by
  decide

/-- **C1 (amended)**: during every transition's exit sequence the adapter
`onExit` hooks are invoked *before* the exiting state's own `exit` callback
(the adapter hooks of a phase fire before the state-local callback of that
same phase, in both the exit and the enter phase). -/
theorem c1_exit_order (m : USM C) (t s : String) (e : USMEvent) (a : String)
    (f : C → USMEvent → USMApi → C)
    (h : (m.states.lookup t).isSome) (hst : m._state = some s) (hs : s ≠ "")
    (hne : m._state ≠ some t)
    (hex : (m.states.lookup s).bind (fun n => n.exit) = some f)
    (ha : a ∈ m.adapters) :
    Precedes (TraceEvt.adapter a (HookCall.onExit s e)) (TraceEvt.stateExit s e)
      (m._transition t e).2 := by
  rw [transition_trace m t e h hne, hst]
  apply Precedes.append_right
  apply Precedes.append_right
  apply Precedes.append_right
  apply Precedes.append_right
  rw [exit_trace m s e hs, hex]
  simp only [Option.isSome_some, if_true]
  exact precedes_append _ _ _ _ (mem_call m _ a ha) (List.mem_singleton.mpr rfl)

/-- Witness for C1 (amended): on the `"a" → "b"` transition of the example
machine, the `onExit` adapter hook precedes the state's `exit` callback. -/
theorem c1_witness :
    Precedes (TraceEvt.adapter "ad1" (HookCall.onExit "a" evGo))
      (TraceEvt.stateExit "a" evGo) (exMachine._transition "b" evGo).2 :=
  c1_exit_order exMachine "b" "a" evGo "ad1" exAdd10 (by decide) rfl (by decide)
    (by decide) rfl (by decide)

/-- **C5**: the enter sequence of a non-no-op transition increments the token,
then fires the `onEnter` adapter hooks carrying the *new* token, then runs the
new state's `enter` callback with an API whose `token` field equals that new
token (the `stateEnter` trace entry records it), and `isCurrent` on that token
holds when the transition completes. -/
theorem c5_enter_sequence (m : USM C) (t : String) (e : USMEvent) (a : String)
    (f : C → USMEvent → USMApi → C)
    (h : (m.states.lookup t).isSome) (hne : m._state ≠ some t)
    (hen : (m.states.lookup t).bind (fun n => n.enter) = some f)
    (ha : a ∈ m.adapters) :
    (m._transition t e).1._token = m._token + 1 ∧
    Precedes (TraceEvt.adapter a (HookCall.onEnter t e (m._token + 1)))
      (TraceEvt.stateEnter t e (m._token + 1)) (m._transition t e).2 ∧
    (m._transition t e).1.isCurrent (m._token + 1) = true := by
  obtain ⟨c0, hc0⟩ := transition_fst m t e h hne
  obtain ⟨c1, hc1⟩ := exit_fst m m._state e
  refine ⟨by rw [hc0], ?_, ?_⟩
  · rw [transition_trace m t e h hne]
    apply Precedes.append_right
    apply Precedes.append_right
    apply Precedes.append_right
    apply Precedes.append_left
    rw [hc1, enter_trace ({ m with context := c1 } : USM C) t e]
    have hlook : ((({ m with context := c1 } : USM C).states.lookup t).bind
        (fun n => n.enter)).isSome = true := by
      rw [show (({ m with context := c1 } : USM C).states.lookup t).bind
        (fun n => n.enter) = some f from hen]
      rfl
    rw [hlook]
    simp only [if_true]
    exact precedes_append _ _ _ _ (mem_call _ _ a ha) (List.mem_singleton.mpr rfl)
  · show (m._token + 1 == (m._transition t e).1._token) = true
    rw [hc0]
    exact beq_self_eq_true _

/-- Witness for C5: the `"a" → "b"` transition of the example machine (state
`"b"` has an `enter` callback). -/
theorem c5_witness :
    (exMachine._transition "b" evGo).1._token = exMachine._token + 1 ∧
    Precedes (TraceEvt.adapter "ad1" (HookCall.onEnter "b" evGo (exMachine._token + 1)))
      (TraceEvt.stateEnter "b" evGo (exMachine._token + 1))
      (exMachine._transition "b" evGo).2 ∧
    (exMachine._transition "b" evGo).1.isCurrent (exMachine._token + 1) = true :=
  c5_enter_sequence exMachine "b" evGo "ad1" exAdd100 (by decide) (by decide) rfl
    (by decide)

/-- **C10**: `go`, `send` and `tick` never read the `running` flag — their
results are identical whatever `_run` is (it is merely carried through) — so a
`go` to a valid, different target on a stopped machine still performs the full
transition (exit hooks and callback when a current state exists, state set,
token incremented, `onEnter` and `onTransition` hooks fired), and `tick` fires
the adapter `onTick` hooks even when the machine is stopped. -/
theorem c10_run_flag_not_checked (m : USM C) (t s : String) (e : USMEvent)
    (dt : Int) (b : Bool) (a : String) :
    ((m.setRun b).go t e = ((m.go t e).1.setRun b, (m.go t e).2)) ∧
    ((m.setRun b).send e = ((m.send e).1.setRun b, (m.send e).2)) ∧
    ((m.setRun b).tick dt = ((m.tick dt).1.setRun b, (m.tick dt).2)) ∧
    (m._run = false → (m.states.lookup t).isSome → m._state ≠ some t →
      (m.go t e).1._state = some t ∧ (m.go t e).1._token = m._token + 1 ∧
      (a ∈ m.adapters →
        TraceEvt.adapter a (HookCall.onEnter t e (m._token + 1)) ∈ (m.go t e).2 ∧
        TraceEvt.adapter a (HookCall.onTransition m._state t e) ∈ (m.go t e).2) ∧
      (m._state = some s → s ≠ "" → a ∈ m.adapters →
        TraceEvt.adapter a (HookCall.onExit s e) ∈ (m.go t e).2) ∧
      (∀ g, m._state = some s → s ≠ "" →
        (m.states.lookup s).bind (fun n => n.exit) = some g →
        TraceEvt.stateExit s e ∈ (m.go t e).2)) ∧
    (m._run = false → a ∈ m.adapters →
      TraceEvt.adapter a (HookCall.onTick dt) ∈ (m.tick dt).2) := by
  refine ⟨setRun_go m t e b, setRun_send m e b, setRun_tick m dt b, ?_, ?_⟩
  · intro _ h hne
    obtain ⟨c0, hc0⟩ := transition_fst m t e h hne
    obtain ⟨c1, hc1⟩ := exit_fst m m._state e
    have htr : (m.go t e).2 = (m._transition t e).2 := rfl
    refine ⟨by show (m._transition t e).1._state = some t; rw [hc0],
      by show (m._transition t e).1._token = m._token + 1; rw [hc0], ?_, ?_, ?_⟩
    · intro ha
      rw [htr, transition_trace m t e h hne]
      constructor
      · apply List.mem_append_left
        apply List.mem_append_left
        apply List.mem_append_left
        apply List.mem_append_right
        rw [hc1, enter_trace ({ m with context := c1 } : USM C) t e]
        apply List.mem_append_left
        exact mem_call _ _ a ha
      · apply List.mem_append_left
        apply List.mem_append_right
        exact mem_call m _ a ha
    · intro hst hs ha
      rw [htr, transition_trace m t e h hne, hst]
      apply List.mem_append_left
      apply List.mem_append_left
      apply List.mem_append_left
      apply List.mem_append_left
      rw [exit_trace m s e hs]
      apply List.mem_append_left
      exact mem_call m _ a ha
    · intro g hst hs hex
      rw [htr, transition_trace m t e h hne, hst]
      apply List.mem_append_left
      apply List.mem_append_left
      apply List.mem_append_left
      apply List.mem_append_left
      rw [exit_trace m s e hs, hex]
      simp only [Option.isSome_some, if_true]
      apply List.mem_append_right
      exact List.mem_singleton.mpr rfl
  · intro _ ha
    rw [tick_trace m dt]
    apply List.mem_append_right
    exact mem_call m _ a ha

/-- Witness for C10: on the stopped example machine, `go "b"` still performs
the full transition (state set, token incremented, exit/enter/transition hooks
and exit callback fired), `tick` still fires `onTick`, and replacing the
`_run` flag changes nothing but the carried flag. -/
theorem c10_witness :
    ((exStopped.setRun true).go "b" evGo =
      ((exStopped.go "b" evGo).1.setRun true, (exStopped.go "b" evGo).2)) ∧
    ((exStopped.go "b" evGo).1._state = some "b" ∧
     (exStopped.go "b" evGo).1._token = exStopped._token + 1 ∧
     TraceEvt.adapter "ad1" (HookCall.onEnter "b" evGo (exStopped._token + 1)) ∈
       (exStopped.go "b" evGo).2 ∧
     TraceEvt.adapter "ad1" (HookCall.onTransition exStopped._state "b" evGo) ∈
       (exStopped.go "b" evGo).2 ∧
     TraceEvt.adapter "ad1" (HookCall.onExit "a" evGo) ∈ (exStopped.go "b" evGo).2 ∧
     TraceEvt.stateExit "a" evGo ∈ (exStopped.go "b" evGo).2) ∧
    TraceEvt.adapter "ad1" (HookCall.onTick 2) ∈ (exStopped.tick 2).2 := by
  have h := c10_run_flag_not_checked exStopped "b" "a" evGo 2 true "ad1"
  have h4 := h.2.2.2.1 rfl (by decide) (by decide)
  have hmem := h4.2.2.1 (by decide)
  exact ⟨h.1, ⟨h4.1, h4.2.1, hmem.1, hmem.2,
    h4.2.2.2.1 rfl (by decide) (by decide),
    h4.2.2.2.2 exAdd10 rfl (by decide) rfl⟩, h.2.2.2.2 rfl (by decide)⟩

end USMModel
